import Mathlib

/-!
Verification development for the crt bulk certificate-lookup tool.

The Go sources are shallowly embedded:
* `result/certificate.go` — the `Certificate` record and its Table/JSON/CSV
  renderers (which mutate the slice they render: the renderers here return the
  post-state of the slice alongside the rendered value);
* `repository` (connection manager) — `New` with its probe/backoff loop,
  `sanitizeDomain`, and the query-statement construction;
* `cmd/crt.go` — `lookupDomainWithRepo` (per-item retry loop),
  `processResults` / `outputResults` (result aggregation and flushing), and a
  labelled transition system for `performBulkLookup` together with the signal
  handler of `setupSignalHandling`.

Machine integers hold small counts here, so `Nat`/`Int` are used directly;
`time.Time` values are modelled as abstract tick counts (`Nat`), and the random
jitter of the connection backoff is an explicit parameter.
-/

namespace Crt

/-- The certificate record of `result/certificate.go`.  `time.Time` fields are
abstract tick counts; `NewlyRegisteredDomain` carries the `nrd` JSON tag with
`omitempty`. -/
structure Certificate where
  issuerCaID : Int
  issuerName : String
  commonName : String
  nameValue : String
  id : Int
  entryTimestamp : Nat
  notBefore : Nat
  notAfter : Nat
  serialNumber : String
  newlyRegisteredDomain : String
deriving DecidableEq

/-- `type Certificates []Certificate`. -/
abbrev Certificates := List Certificate

/-- `func (r Certificates) Size() int`. -/
def Certificates.Size (r : Certificates) : Nat := r.length

/-- One marshalled JSON object of a certificate.  The `nrd` field is `none`
exactly when the Go string is empty (`omitempty`). -/
structure CertJson where
  issuer_ca_id : Int
  issuer_name : String
  common_name : String
  name_value : String
  id : Int
  entry_timestamp : Nat
  not_before : Nat
  not_after : Nat
  serial_number : String
  nrd : Option String
deriving DecidableEq

/-- Marshalling of a single certificate into its JSON object. -/
def certToJson (c : Certificate) : CertJson :=
  ⟨c.issuerCaID, c.issuerName, c.commonName, c.nameValue, c.id,
   c.entryTimestamp, c.notBefore, c.notAfter, c.serialNumber,
   if c.newlyRegisteredDomain = "" then none else some c.newlyRegisteredDomain⟩

/-- `strings.Trim(s, "\"")`: strip leading and trailing quote characters. -/
def trimQuotes (s : String) : String :=
  String.mk (((s.toList.dropWhile (fun c => c = '"')).reverse.dropWhile
    (fun c => c = '"')).reverse)

/-- The issuer-organisation extraction of `Certificates.Table`:
`strings.Contains(name, "O=")` holds iff splitting on `"O="` yields at least
two parts; then the text up to the first comma is taken and quote-trimmed. -/
def issuerOrg (name : String) : String :=
  let parts := name.splitOn "O="
  if 2 ≤ parts.length then
    match (parts.get? 1).getD "" |>.splitOn "," with
    | [] => "Unknown"
    | p :: _ => trimQuotes p
  else "Unknown"

/-- `t.Format("2006-01-02 15:04:05")` on an abstract tick (layout out of scope,
modelled as the canonical rendering of the tick). -/
def fmtDateTime (t : Nat) : String := toString t

/-- `t.Format("2006-01-02")` on an abstract tick. -/
def fmtDate (t : Nat) : String := toString t

/-- `t.String()` on an abstract tick (used by the CSV renderer). -/
def timeStr (t : Nat) : String := toString t

/-- `func (r Certificates) Table() []byte` from `result/certificate.go`.
Returns the header together with the appended rows, and the post-state of the
slice: when `0 < len r ≤ 2` the code sets `r[0].NewlyRegisteredDomain`
to `"likely"` before rendering, mutating the caller's slice. -/
def Certificates.Table (r : Certificates) :
    (List String × List (List String)) × Certificates :=
  let small := 0 < r.length ∧ r.length ≤ 2
  let info := if small then
      ["Matching", "Logged At", "Not Before", "Not After", "Issuer", "NRD"]
    else
      ["Matching", "Logged At", "Not Before", "Not After", "Issuer"]
  let r2 : Certificates :=
    if small then
      match r with
      | [] => []
      | c :: rest => { c with newlyRegisteredDomain := "likely" } :: rest
    else r
  let rows := r2.map (fun cert =>
    let row := [cert.nameValue, fmtDateTime cert.entryTimestamp,
      fmtDate cert.notBefore, fmtDate cert.notAfter, issuerOrg cert.issuerName]
    if small then row ++ [cert.newlyRegisteredDomain] else row)
  ((info, rows), r2)

/-- `func (r Certificates) JSON() ([]byte, error)`: when `0 < len r ≤ 2` the
code sets `r[0].NewlyRegisteredDomain = "likely"`, then marshals the slice as
one JSON array.  Returns the array elements and the post-state of the slice. -/
def Certificates.JSON (r : Certificates) : List CertJson × Certificates :=
  let r2 : Certificates :=
    if 0 < r.length ∧ r.length ≤ 2 then
      match r with
      | [] => []
      | c :: rest => { c with newlyRegisteredDomain := "likely" } :: rest
    else r
  (r2.map certToJson, r2)

/-- `func (r Certificates) CSV() ([]byte, error)`: header (with the extra
`newly_registered_domain` column when `0 < len r ≤ 2`, in which case
`r[0].NewlyRegisteredDomain` is set to `"likely"` first) followed by one row
per certificate.  Returns the rows and the post-state of the slice. -/
def Certificates.CSV (r : Certificates) :
    List (List String) × Certificates :=
  let small := 0 < r.length ∧ r.length ≤ 2
  let r2 : Certificates :=
    if small then
      match r with
      | [] => []
      | c :: rest => { c with newlyRegisteredDomain := "likely" } :: rest
    else r
  let headers := if small then
      ["issuer_ca_id", "issuer_name", "common_name", "name_value", "id",
       "entry_timestamp", "not_before", "not_after", "serial_number",
       "newly_registered_domain"]
    else
      ["issuer_ca_id", "issuer_name", "common_name", "name_value", "id",
       "entry_timestamp", "not_before", "not_after", "serial_number"]
  let rows := r2.map (fun v =>
    let row := [toString v.issuerCaID, v.issuerName, v.commonName, v.nameValue,
      toString v.id, timeStr v.entryTimestamp, timeStr v.notBefore,
      timeStr v.notAfter, v.serialNumber]
    if small then row ++ [v.newlyRegisteredDomain] else row)
  (headers :: rows, r2)

/-- The classified result of one call to `lookupDomainWithRepo`
(`cmd/crt.go`).  `failure` wraps the target name and the last underlying
error, as the Go error message does. -/
inductive LookupOutcome
  | success (rows : Certificates)
  | emptyRes
  | failure (domain : String) (err : String)
  | interrupted
  | emptyDomain
  | shutdownInProgress
  | maxRetriesExceeded
deriving DecidableEq

/-- The retry loop body of `lookupDomainWithRepo`.  `svc` is the query
service, indexed by the attempt number; `sd` is the shutdown flag as observed
by `isShuttingDown`.  The first component of the result counts the query
attempts actually made; the fuel starts at `retryCount + 1` so the base case
mirrors the unreachable `Max Retries Exceeded` return. -/
def lookupLoop (svc : Nat → Except String Certificates) (sd : Bool)
    (domain : String) : Nat → Nat → Nat × LookupOutcome
  | _, 0 => (0, LookupOutcome.maxRetriesExceeded)
  | attempt, fuel + 1 =>
    if 0 < attempt ∧ sd = true then (0, LookupOutcome.interrupted)
    else
      match svc attempt with
      | Except.error e =>
          if 0 < fuel then
            let r := lookupLoop svc sd domain (attempt + 1) fuel
            (r.1 + 1, r.2)
          else (1, LookupOutcome.failure domain e)
      | Except.ok rows =>
          if Certificates.Size rows = 0 then (1, LookupOutcome.emptyRes)
          else (1, LookupOutcome.success rows)

/-- `func lookupDomainWithRepo(repo, domain) error` from `cmd/crt.go`:
reject the empty domain, reject when shutting down, then run the retry loop
with `retryCount + 1` available attempts.  Returns the number of query
attempts made together with the classified outcome. -/
def lookupDomainWithRepo (svc : Nat → Except String Certificates) (sd : Bool)
    (retryCount : Nat) (domain : String) : Nat × LookupOutcome :=
  if domain = "" then (0, LookupOutcome.emptyDomain)
  else if sd = true then (0, LookupOutcome.shutdownInProgress)
  else lookupLoop svc sd domain 0 (retryCount + 1)

/-- `initialDelay = 2 * time.Second` of the repository package, in
nanoseconds. -/
def initialDelay : Nat := 2000000000

/-- `maxDelay = 10 * time.Second` of the repository package, in
nanoseconds. -/
def maxDelay : Nat := 10000000000

/-- `maxRetries = 3` of the repository package. -/
def maxRetries : Nat := 3

/-- The delay sequence of the backoff loop in `repository.New`:
start at `initialDelay` and double after every sleep, capped at `maxDelay`
by the repository's own `min`. -/
def delaySeq : Nat → Nat
  | 0 => initialDelay
  | n + 1 => min (delaySeq n * 2) maxDelay

/-- The observable behaviour of one call to `repository.New`: how many
liveness probes ran, the durations slept between failed probes, whether the
partially-opened handle was closed, and the final result (`Except.error`
wraps the last probe error). -/
structure ConnTrace where
  probes : Nat
  sleeps : List Nat
  closed : Bool
  result : Except String Unit

/-- The probe/backoff loop of `repository.New`.  `ping i` is the outcome of
the `i`-th `db.PingContext` (`none` = success); `jitter i` is the value the
`i`-th `rand.Int63n(int64(delay / 2))` draw would return.  The fuel starts at
`maxRetries`; on a failed non-final probe the loop sleeps
`delay + jitter` and doubles the delay capped at `maxDelay`. -/
def connectLoop (ping : Nat → Option String) (jitter : Nat → Nat) :
    Nat → Nat → Nat → List Nat → String → ConnTrace
  | 0, idx, _, sleeps, lastErr =>
      ⟨idx, sleeps.reverse, true, Except.error lastErr⟩
  | fuel + 1, idx, delay, sleeps, _ =>
      match ping idx with
      | none => ⟨idx + 1, sleeps.reverse, false, Except.ok ()⟩
      | some e =>
          if 0 < fuel then
            connectLoop ping jitter fuel (idx + 1) (min (delay * 2) maxDelay)
              ((delay + jitter idx) :: sleeps) e
          else connectLoop ping jitter fuel (idx + 1) delay sleeps e

/-- `func New() (*Repository, error)` of the repository package
(the variant with jittered exponential backoff): run the probe loop with
`maxRetries` attempts starting from `initialDelay`. -/
def New (ping : Nat → Option String) (jitter : Nat → Nat) : ConnTrace :=
  connectLoop ping jitter maxRetries 0 initialDelay [] ""

/-- A ping that fails every probe with a fixed error (for witnesses). -/
def pingAllFail : Nat → Option String := fun _ => some "refused"

/-- The zero jitter draw (a legal value of `rand.Int63n`). -/
def zeroJitter : Nat → Nat := fun _ => 0

/-- A concrete certificate with no NRD annotation, for witnesses. -/
def certA : Certificate :=
  ⟨10, "C=US, O=ExampleCA", "example.com", "example.com", 1, 100, 90, 400,
   "ab01", ""⟩

/-- A second concrete certificate with no NRD annotation. -/
def certB : Certificate :=
  ⟨11, "C=US, O=OtherCA", "www.example.com", "www.example.com", 2, 101, 91,
   401, "ab02", ""⟩

/-- A third concrete certificate with no NRD annotation. -/
def certC : Certificate :=
  ⟨12, "C=US, O=ThirdCA", "api.example.com", "api.example.com", 3, 102, 92,
   402, "ab03", ""⟩

/-- The mutually-exclusive output-format flags of `cmd/crt.go` (table is the
default when all three are false). -/
structure FormatFlags where
  jsonOut : Bool
  jsonlOut : Bool
  csvOut : Bool
deriving DecidableEq

/-- The shared result buffers of `cmd/crt.go`: `jsonResults` and
`jsonlResults` hold structured array elements; `csvResults` and
`tableResults` hold the rendered blocks appended per completed item
(each block recorded together with its trailing separator). -/
structure AggState where
  jsonResults : List CertJson
  jsonlResults : List CertJson
  csvResults : List (List (List String))
  tableResults : List ((List String) × List (List String))
deriving DecidableEq

/-- The empty buffers at program start. -/
def initAgg : AggState := ⟨[], [], [], []⟩

/-- One write performed against the output sink.  `writeArr` is the single
`os.WriteFile` of the complete JSON array (overwrite semantics);
`truncateFile` is an `O_TRUNC` open that writes no data; the other
constructors are appends of one JSONL line / one CSV or table block, or the
emission of a whole buffered sequence to stdout. -/
inductive OutOp
  | truncateFile
  | writeArr (elems : List CertJson)
  | writeLine (e : CertJson)
  | writeCsvDoc (doc : List (List String))
  | writeTableDoc (doc : (List String) × List (List String))
  | writeCsvAll (docs : List (List (List String)))
  | writeTableAll (docs : List ((List String) × List (List String)))
deriving DecidableEq

/-- `func processResults(res, domain)` of `cmd/crt.go`: renders one
successful result set into the per-format buffer and, when an output file is
configured, performs the format's incremental file operations (JSONL: one
line per element appended; CSV/table: the block appended; JSON: an `O_TRUNC`
open that writes nothing, the array being written only at flush time).
Returns the updated buffers and the file operations performed. -/
def processResults (f : FormatFlags) (filename : Option String)
    (st : AggState) (res : Certificates) : AggState × List OutOp :=
  if f.jsonOut || f.jsonlOut then
    let items := (Certificates.JSON res).1
    let st2 :=
      if f.jsonOut then { st with jsonResults := st.jsonResults ++ items }
      else { st with jsonlResults := st.jsonlResults ++ items }
    let ops :=
      match filename with
      | none => []
      | some _ =>
          if f.jsonlOut then items.map OutOp.writeLine
          else [OutOp.truncateFile]
    (st2, ops)
  else if f.csvOut then
    let doc := (Certificates.CSV res).1
    ({ st with csvResults := st.csvResults ++ [doc] },
     match filename with
     | none => []
     | some _ => [OutOp.writeCsvDoc doc])
  else
    let doc := (Certificates.Table res).1
    ({ st with tableResults := st.tableResults ++ [doc] },
     match filename with
     | none => []
     | some _ => [OutOp.writeTableDoc doc])

/-- `func outputResults()` of `cmd/crt.go` (the flush): with no output file,
print the buffered content for the selected format to stdout (the chained
else-ifs of the source, table being the final default); with an output file,
only the JSON format writes — the complete buffered array in a single
overwrite operation.  The buffers are left untouched. -/
def outputResults (f : FormatFlags) (filename : Option String)
    (st : AggState) : AggState × List OutOp :=
  match filename with
  | none =>
      (st,
        if f.jsonOut ∧ 0 < st.jsonResults.length then
          [OutOp.writeArr st.jsonResults]
        else if f.jsonlOut ∧ 0 < st.jsonlResults.length then
          st.jsonlResults.map OutOp.writeLine
        else if f.csvOut ∧ 0 < st.csvResults.length then
          [OutOp.writeCsvAll st.csvResults]
        else if 0 < st.tableResults.length then
          [OutOp.writeTableAll st.tableResults]
        else [])
  | some _ =>
      (st,
        if f.jsonOut ∧ 0 < st.jsonResults.length then
          [OutOp.writeArr st.jsonResults]
        else [])

/-- Record a sequence of successful outcomes (result sets) in completion
order, threading the aggregator state through `processResults`. -/
def recordAll (f : FormatFlags) (filename : Option String)
    (sets : List Certificates) : AggState :=
  sets.foldl (fun st res => (processResults f filename st res).1) initAgg

/-- The `-json` flag configuration. -/
def jsonFlags : FormatFlags := ⟨true, false, false⟩

/-- The default (table) flag configuration. -/
def tableFlags : FormatFlags := ⟨false, false, false⟩

/-- Progress of the one-shot interrupt-handler goroutine installed by
`setupSignalHandling`: it receives the signal and sets the flag (`hset`),
calls `outputResults` (`hflushed`), then calls `os.Exit(130)`
(`hexited`). -/
inductive HPhase
  | hidle
  | hset
  | hflushed
  | hexited
deriving DecidableEq

/-- State of a bulk run (`performBulkLookup` together with the signal
handler): targets not yet admitted, goroutines spawned but not yet past
their in-task shutdown check (each holding a semaphore slot), goroutines
that began processing, the `shuttingDown` flag, the handler phase, whether
the main goroutine passed `wg.Wait` and whether it ran its final
`outputResults`, the total number of `outputResults` executions, and the
exit status once `os.Exit` ran. -/
structure BulkState where
  pending : Nat
  idleT : Nat
  busyT : Nat
  flag : Bool
  handler : HPhase
  mainDone : Bool
  mainFlushed : Bool
  flushes : Nat
  exited : Option Nat
deriving DecidableEq

/-- Transition labels of the bulk-run semantics. -/
inductive BulkLabel
  | spawnT
  | skipT
  | beginT
  | finishT
  | waitT
  | flushMain
  | setFlagL
  | flushSig
  | exitSig
deriving DecidableEq

/-- Small-step semantics of a bulk run with concurrency cap `C`
(`semaphore := make(chan struct, C)`):
* `spawnT` — the admission loop checks the flag, acquires a semaphore slot
  and spawns a goroutine for the next target;
* `skipT` — a spawned goroutine observes the flag set and returns without
  processing (releasing its slot);
* `beginT` — a spawned goroutine observes the flag clear and begins
  processing its target;
* `finishT` — a processing goroutine completes (releasing its slot);
* `waitT` — the main goroutine leaves the loop (targets exhausted or flag
  set) and passes `wg.Wait` once all goroutines are done;
* `flushMain` — the main goroutine runs its unconditional final
  `outputResults`;
* `setFlagL` / `flushSig` / `exitSig` — the interrupt handler sets the
  flag, runs `outputResults`, and calls `os.Exit(130)`.
Every step requires that `os.Exit` has not yet happened. -/
inductive BStep (C : Nat) : BulkLabel → BulkState → BulkState → Prop
  | spawnT (s : BulkState) (h1 : s.exited = none) (h2 : s.mainDone = false)
      (h3 : s.flag = false) (h4 : 0 < s.pending)
      (h5 : s.idleT + s.busyT < C) :
      BStep C BulkLabel.spawnT s
        { s with pending := s.pending - 1, idleT := s.idleT + 1 }
  | skipT (s : BulkState) (h1 : s.exited = none) (h2 : s.flag = true)
      (h3 : 0 < s.idleT) :
      BStep C BulkLabel.skipT s { s with idleT := s.idleT - 1 }
  | beginT (s : BulkState) (h1 : s.exited = none) (h2 : s.flag = false)
      (h3 : 0 < s.idleT) :
      BStep C BulkLabel.beginT s
        { s with idleT := s.idleT - 1, busyT := s.busyT + 1 }
  | finishT (s : BulkState) (h1 : s.exited = none) (h2 : 0 < s.busyT) :
      BStep C BulkLabel.finishT s { s with busyT := s.busyT - 1 }
  | waitT (s : BulkState) (h1 : s.exited = none) (h2 : s.mainDone = false)
      (h3 : s.pending = 0 ∨ s.flag = true) (h4 : s.idleT = 0)
      (h5 : s.busyT = 0) :
      BStep C BulkLabel.waitT s { s with mainDone := true }
  | flushMain (s : BulkState) (h1 : s.exited = none) (h2 : s.mainDone = true)
      (h3 : s.mainFlushed = false) :
      BStep C BulkLabel.flushMain s
        { s with mainFlushed := true, flushes := s.flushes + 1 }
  | setFlagL (s : BulkState) (h1 : s.exited = none)
      (h2 : s.handler = HPhase.hidle) :
      BStep C BulkLabel.setFlagL s
        { s with flag := true, handler := HPhase.hset }
  | flushSig (s : BulkState) (h1 : s.exited = none)
      (h2 : s.handler = HPhase.hset) :
      BStep C BulkLabel.flushSig s
        { s with flushes := s.flushes + 1, handler := HPhase.hflushed }
  | exitSig (s : BulkState) (h1 : s.exited = none)
      (h2 : s.handler = HPhase.hflushed) :
      BStep C BulkLabel.exitSig s
        { s with exited := some 130, handler := HPhase.hexited }

/-- Finite executions of the bulk-run semantics. -/
inductive BTrace (C : Nat) : BulkState → List BulkLabel → BulkState → Prop
  | nil (s : BulkState) : BTrace C s [] s
  | cons (l : BulkLabel) (s t u : BulkState) (ls : List BulkLabel)
      (hstep : BStep C l s t) (htail : BTrace C t ls u) :
      BTrace C s (l :: ls) u

/-- Initial state of a bulk run over `n` targets. -/
def initB (n : Nat) : BulkState :=
  ⟨n, 0, 0, false, HPhase.hidle, false, false, 0, none⟩

/-- Rank of the handler phase: 1 exactly once the handler flush happened. -/
def hrank : HPhase → Nat
  | HPhase.hidle => 0
  | HPhase.hset => 0
  | HPhase.hflushed => 1
  | HPhase.hexited => 1

/-- `func sanitizeDomain(domain string) string` of the repository package:
`strings.ReplaceAll(domain, "%", "\\%")`, acting on the character list of
the domain. -/
def sanitizeDomain : List Char → List Char
  | [] => []
  | c :: rest =>
      if c = '%' then '\\' :: '%' :: sanitizeDomain rest
      else c :: sanitizeDomain rest

/-- Modelled from the spec: the SQL text constants `certLogScript`,
`subdomainScript` and `excludeExpiredFilter` are not under src (only their
use sites are); the spec keeps the query text out of scope.  Per the call
`fmt.Sprintf(script, domain, domain, filter, limit)` each script is a
format template taking the domain twice, then the expiry filter, then the
limit; its literal pieces `p0`–`p4` and the filter text are arbitrary. -/
structure QueryTemplate where
  p0 : List Char
  p1 : List Char
  p2 : List Char
  p3 : List Char
  p4 : List Char
  filterStr : List Char

/-- `fmt.Sprintf` over a 4-slot template. -/
def interpTemplate (t : QueryTemplate) (d1 d2 flt lim : List Char) :
    List Char :=
  t.p0 ++ d1 ++ t.p1 ++ d2 ++ t.p2 ++ flt ++ t.p3 ++ lim ++ t.p4

/-- The statement construction of `Repository.GetCertLogs`:
`domain = sanitizeDomain(domain)`, the filter selected by `expired`, then
`fmt.Sprintf(certLogScript, domain, domain, filter, limit)`. -/
def GetCertLogs_stmt (t : QueryTemplate) (domain : List Char)
    (expired : Bool) (lim : List Char) : List Char :=
  interpTemplate t (sanitizeDomain domain) (sanitizeDomain domain)
    (if expired then t.filterStr else []) lim

/-- The statement construction of `Repository.GetSubdomains` (same shape,
with its own template `subdomainScript`). -/
def GetSubdomains_stmt (t : QueryTemplate) (domain : List Char)
    (expired : Bool) (lim : List Char) : List Char :=
  interpTemplate t (sanitizeDomain domain) (sanitizeDomain domain)
    (if expired then t.filterStr else []) lim

end Crt

namespace Crt

theorem lookupLoop_fail (errs : Nat → String) (d : String) :
    ∀ fuel attempt, 0 < fuel →
      lookupLoop (fun i => Except.error (errs i)) false d attempt fuel
        = (fuel, LookupOutcome.failure d (errs (attempt + fuel - 1))) := by
  intro fuel
  induction fuel with
  | zero => intro _ h; exact absurd h (by simp)
  | succ f ih =>
    intro attempt _
    simp only [lookupLoop]
    rcases Nat.eq_zero_or_pos f with hf | hf
    · subst hf
      simp
    · rw [if_pos hf]
      have := ih (attempt + 1) hf
      simp only [this]
      have harith : attempt + 1 + f - 1 = attempt + (f + 1) - 1 := by omega
      rw [if_neg (by simp), harith]

/-- C1: for every target domain and every query service that fails on every
invocation, `lookupDomainWithRepo` with retry count `r` makes exactly `r + 1`
query attempts and then returns a `failure` wrapping the last underlying
error (`errs r`) and the target name; in particular no `failure` is returned
while attempts remain. -/
theorem lookup_fail_makes_all_attempts (errs : Nat → String) (r : Nat)
    (d : String) (hd : d ≠ "") :
    lookupDomainWithRepo (fun i => Except.error (errs i)) false r d
      = (r + 1, LookupOutcome.failure d (errs r)) := by
  unfold lookupDomainWithRepo
  rw [if_neg hd, if_neg (by simp)]
  have := lookupLoop_fail errs d (r + 1) 0 (Nat.succ_pos r)
  simpa using this

/-- Witness for C1: a service failing on each of the 3 attempts (retry count
2) yields exactly 3 attempts and the failure wraps the last error and the
domain. -/
theorem lookup_fail_makes_all_attempts_witness :
    lookupDomainWithRepo (fun i => Except.error (toString i)) false 2
      "example.com" = (3, LookupOutcome.failure "example.com" "2") :=
  lookup_fail_makes_all_attempts (fun i => toString i) 2 "example.com"
    (by decide)

/-- C2: if the query service succeeds with zero rows on the first attempt,
`lookupDomainWithRepo` returns the empty outcome after exactly one attempt
(no retries), and the zero-row result is not classified as an error. -/
theorem lookup_empty_first_attempt (svc : Nat → Except String Certificates)
    (r : Nat) (d : String) (hd : d ≠ "")
    (h0 : svc 0 = Except.ok ([] : Certificates)) :
    lookupDomainWithRepo svc false r d = (1, LookupOutcome.emptyRes) := by
  unfold lookupDomainWithRepo
  rw [if_neg hd, if_neg (by simp)]
  simp only [lookupLoop, h0]
  simp [Certificates.Size]

/-- Witness for C2: a zero-row first attempt with retry count 5 performs a
single attempt and returns the empty outcome. -/
theorem lookup_empty_first_attempt_witness :
    lookupDomainWithRepo (fun _ => Except.ok ([] : Certificates)) false 5
      "example.com" = (1, LookupOutcome.emptyRes) :=
  lookup_empty_first_attempt (fun _ => Except.ok []) 5 "example.com"
    (by decide) rfl

theorem connectLoop_probes_le (p : Nat → Option String) (j : Nat → Nat) :
    ∀ fuel idx d sl le,
      (connectLoop p j fuel idx d sl le).probes ≤ idx + fuel := by
  intro fuel
  induction fuel with
  | zero => intro idx d sl le; simp [connectLoop]
  | succ f ih =>
    intro idx d sl le
    rcases hp : p idx with _ | e
    · simp only [connectLoop, hp]
      omega
    · simp only [connectLoop, hp]
      rcases Nat.eq_zero_or_pos f with hf | hf
      · subst hf
        simp only [Nat.lt_irrefl, if_false, connectLoop]
        omega
      · rw [if_pos hf]
        have := ih (idx + 1) (min (d * 2) maxDelay) ((d + j idx) :: sl) e
        omega

theorem delaySeq_ge : ∀ n, 2000000000 ≤ delaySeq n := by
  intro n
  induction n with
  | zero => simp [delaySeq, initialDelay]
  | succ m ih =>
    simp only [delaySeq]
    have h1 : 2000000000 ≤ delaySeq m * 2 := by omega
    have h2 : (2000000000 : Nat) ≤ maxDelay := by simp [maxDelay]
    exact le_min h1 h2

/-- C3: connection acquisition performs at most 3 liveness probes; it
succeeds as soon as one probe passes (without closing the handle); when all
probes fail it makes exactly 3 probes, sleeps `delay + jitter` after each of
the two non-final failures with the delay doubling along `delaySeq`, closes
the partially-opened handle and returns an error wrapping the last probe
error; and the doubled delay never exceeds `maxDelay`.  The hypothesis
records the support `[0, delay / 2)` of the `rand.Int63n` jitter draw. -/
theorem connection_acquire_behavior (ping : Nat → Option String)
    (jitter : Nat → Nat) (_hj : ∀ i, jitter i < delaySeq i / 2) :
    (New ping jitter).probes ≤ 3
  ∧ (∀ i, i < 3 → (∀ k, k < i → ping k ≠ none) → ping i = none →
      (New ping jitter).result = Except.ok ()
        ∧ (New ping jitter).probes = i + 1
        ∧ (New ping jitter).closed = false)
  ∧ (∀ e0 e1 e2, ping 0 = some e0 → ping 1 = some e1 → ping 2 = some e2 →
      New ping jitter
        = ⟨3, [delaySeq 0 + jitter 0, delaySeq 1 + jitter 1], true,
           Except.error e2⟩)
  ∧ (∀ n, delaySeq (n + 1) ≤ maxDelay) := by
  refine ⟨?_, ?_, ?_, ?_⟩
  · have := connectLoop_probes_le ping jitter 3 0 initialDelay [] ""
    simpa [New, maxRetries] using this
  · intro i hi hbefore hsucc
    interval_cases i
    · simp [New, maxRetries, connectLoop, hsucc]
    · rcases hp0 : ping 0 with _ | e0
      · exact absurd hp0 (hbefore 0 (by omega))
      · simp [New, maxRetries, connectLoop, hp0, hsucc]
    · rcases hp0 : ping 0 with _ | e0
      · exact absurd hp0 (hbefore 0 (by omega))
      · rcases hp1 : ping 1 with _ | e1
        · exact absurd hp1 (hbefore 1 (by omega))
        · simp [New, maxRetries, connectLoop, hp0, hp1, hsucc]
  · intro e0 e1 e2 hp0 hp1 hp2
    simp only [New, maxRetries, connectLoop, hp0, hp1, hp2]
    norm_num
    exact ⟨rfl, by simp [delaySeq, initialDelay]⟩
  · intro n
    simp only [delaySeq]
    exact min_le_right _ _

/-- C8: rendering a certificate set as JSON annotates a set of size 1 or 2
with the `"likely"` newly-registered-domain marker (on its first element's
`nrd` field), while a set of size 3 or more (whose elements carry no
prior annotation, as produced by the repository scan) is rendered with no
`nrd` field at all. -/
theorem json_nrd_marker_sizes (r : Certificates) :
    (1 ≤ r.length → r.length ≤ 2 →
      ((Certificates.JSON r).1.head?.map CertJson.nrd) = some (some "likely"))
  ∧ (3 ≤ r.length → (∀ c ∈ r, c.newlyRegisteredDomain = "") →
      ∀ o ∈ (Certificates.JSON r).1, o.nrd = none) := by
  constructor
  · intro h1 h2
    match r, h1 with
    | c :: rest, _ =>
      have hcond : 0 < (c :: rest).length ∧ (c :: rest).length ≤ 2 :=
        ⟨by simp, h2⟩
      simp only [Certificates.JSON, if_pos hcond]
      simp [certToJson]
  · intro h3 hempty o ho
    have hcond : ¬ (0 < r.length ∧ r.length ≤ 2) := by omega
    simp only [Certificates.JSON, if_neg hcond] at ho
    simp only [List.mem_map] at ho
    obtain ⟨c, hc, rfl⟩ := ho
    simp [certToJson, hempty c hc]

/-- Witness for C8: a singleton set is rendered with the `"likely"` marker;
a three-element set of unannotated certificates is rendered without any
`nrd` field. -/
theorem json_nrd_marker_sizes_witness :
    ((Certificates.JSON [certA]).1.head?.map CertJson.nrd)
        = some (some "likely")
  ∧ (∀ o ∈ (Certificates.JSON [certA, certB, certC]).1, o.nrd = none) :=
  ⟨(json_nrd_marker_sizes [certA]).1 (by decide) (by decide),
   (json_nrd_marker_sizes [certA, certB, certC]).2 (by decide) (by decide)⟩

/-- C10: the renderers are not read-only.  For a set of size 1 or 2, each of
Table, JSON and CSV leaves the slice with `"likely"` written into the
`NewlyRegisteredDomain` field of element 0, all other fields and all other
elements unchanged; and if the input carried no annotation, every element of
the post-state other than element 0 still carries none. -/
theorem renderers_mutate_first_elem (c : Certificate) (rest : Certificates)
    (hlen : (c :: rest).length ≤ 2) :
    (Certificates.Table (c :: rest)).2
        = { c with newlyRegisteredDomain := "likely" } :: rest
  ∧ (Certificates.JSON (c :: rest)).2
        = { c with newlyRegisteredDomain := "likely" } :: rest
  ∧ (Certificates.CSV (c :: rest)).2
        = { c with newlyRegisteredDomain := "likely" } :: rest
  ∧ ((∀ x ∈ rest, x.newlyRegisteredDomain = "") →
      ∀ i x, ((Certificates.Table (c :: rest)).2).get? (i + 1) = some x →
        x.newlyRegisteredDomain = "") := by
  have hcond : 0 < (c :: rest).length ∧ (c :: rest).length ≤ 2 :=
    ⟨by simp, hlen⟩
  have htab : (Certificates.Table (c :: rest)).2
      = { c with newlyRegisteredDomain := "likely" } :: rest := by
    simp only [Certificates.Table, if_pos hcond]
  refine ⟨htab, ?_, ?_, ?_⟩
  · simp only [Certificates.JSON, if_pos hcond]
  · simp only [Certificates.CSV, if_pos hcond]
  · intro hempty i x hx
    rw [htab] at hx
    simp only [List.get?_cons_succ] at hx
    exact hempty x (List.get?_mem hx)

/-- Witness for C10: rendering the two-element set `[certA, certB]` mutates
element 0 and leaves `certB` unannotated. -/
theorem renderers_mutate_first_elem_witness :
    (Certificates.Table [certA, certB]).2
        = { certA with newlyRegisteredDomain := "likely" } :: [certB]
  ∧ (Certificates.JSON [certA, certB]).2
        = { certA with newlyRegisteredDomain := "likely" } :: [certB]
  ∧ (Certificates.CSV [certA, certB]).2
        = { certA with newlyRegisteredDomain := "likely" } :: [certB]
  ∧ certB.newlyRegisteredDomain = "" := by
  have h := renderers_mutate_first_elem certA [certB] (by decide)
  exact ⟨h.1, h.2.1, h.2.2.1,
    h.2.2.2 (by decide) 0 certB (by rw [h.1]; rfl)⟩

theorem json_len (r : Certificates) :
    ((Certificates.JSON r).1).length = r.length := by
  rcases r with _ | ⟨c, rest⟩
  · simp [Certificates.JSON]
  · simp only [Certificates.JSON]
    by_cases h : 0 < (c :: rest).length ∧ (c :: rest).length ≤ 2
    · rw [if_pos h]
      simp
    · rw [if_neg h]
      simp

theorem recordAll_json_len (p : Option String) (sets : List Certificates) :
    (recordAll jsonFlags p sets).jsonResults.length
      = (sets.map List.length).sum := by
  suffices h : ∀ (st : AggState) (s : List Certificates),
      (s.foldl (fun st res => (processResults jsonFlags p st res).1)
          st).jsonResults.length
        = st.jsonResults.length + (s.map List.length).sum by
    simpa [recordAll, initAgg] using h initAgg sets
  intro st s
  induction s generalizing st with
  | nil => simp
  | cons a t ih =>
    simp only [List.foldl_cons, ih, List.map_cons, List.sum_cons]
    have hstep : ((processResults jsonFlags p st a).1).jsonResults.length
        = st.jsonResults.length + a.length := by
      simp [processResults, jsonFlags, json_len]
    rw [hstep]
    omega

/-- C4 counterexample: after recording N = 1 successful outcome whose result
set has two certificates, the JSON flush writes an array of 2 elements — not
N = 1 — so the flushed array size is the total element count, not the number
of recorded outcomes. -/
theorem json_flush_count_counterexample :
    (outputResults jsonFlags (some "out") (recordAll jsonFlags (some "out")
        [[certA, certB]])).2
      = [OutOp.writeArr ((Certificates.JSON [certA, certB]).1)]
  ∧ ((Certificates.JSON [certA, certB]).1).length = 2
  ∧ ¬ ((Certificates.JSON [certA, certB]).1).length = 1 := by
  decide

/-- C4 (amended): for every nonempty sequence of successfully recorded
outcomes (each a nonempty result set), in any completion order, the JSON
flush performs exactly one write — the complete buffered array, with
overwrite semantics — and the array holds exactly the total number of
certificate elements across the recorded outcomes (not the number of
outcomes). -/
theorem json_flush_single_write_total_elems (sets : List Certificates)
    (p : String) (hne : sets ≠ []) (hall : ∀ s ∈ sets, s ≠ []) :
    (outputResults jsonFlags (some p) (recordAll jsonFlags (some p) sets)).2
      = [OutOp.writeArr (recordAll jsonFlags (some p) sets).jsonResults]
  ∧ (recordAll jsonFlags (some p) sets).jsonResults.length
      = (sets.map List.length).sum := by
  have hlen := recordAll_json_len (some p) sets
  have hpos : 0 < (sets.map List.length).sum := by
    rcases sets with _ | ⟨a, t⟩
    · exact absurd rfl hne
    · have ha : a ≠ [] := hall a (by simp)
      have ha2 : 0 < a.length := List.length_pos.mpr ha
      simp only [List.map_cons, List.sum_cons]
      omega
  refine ⟨?_, hlen⟩
  simp only [outputResults]
  rw [if_pos ⟨rfl, by rw [hlen]; exact hpos⟩]

/-- Witness for C4 (amended): two outcomes of sizes 1 and 2 flush as one
overwrite of an array of 3 elements. -/
theorem json_flush_single_write_total_elems_witness :
    (outputResults jsonFlags (some "o") (recordAll jsonFlags (some "o")
        [[certA], [certB, certC]])).2
      = [OutOp.writeArr (recordAll jsonFlags (some "o")
          [[certA], [certB, certC]]).jsonResults]
  ∧ (recordAll jsonFlags (some "o")
      [[certA], [certB, certC]]).jsonResults.length
      = ([[certA], [certB, certC]].map List.length).sum :=
  json_flush_single_write_total_elems [[certA], [certB, certC]] "o"
    (by decide) (by decide)

/-- C5 counterexample: with the default table format writing to stdout and a
nonempty buffer, a second flush with no record calls in between re-emits the
buffered blocks — it does write additional output bytes. -/
theorem flush_twice_stdout_counterexample :
    (outputResults tableFlags none
        ((outputResults tableFlags none
          (processResults tableFlags none initAgg [certA]).1).1)).2 ≠ [] := by
  decide

/-- C5 (amended): for the JSONL, CSV and table formats (`jsonOut = false`),
flushing to an output file writes nothing at all — the file content was
already written incrementally by `processResults` — so a second flush writes
no additional bytes; flushing to stdout leaves the buffers untouched, so a
second flush re-emits exactly the same bytes as the first instead of
writing nothing. -/
theorem flush_idempotent_file_sink (f : FormatFlags) (p : String)
    (st : AggState) (hjson : f.jsonOut = false) :
    (outputResults f (some p) st).2 = []
  ∧ (outputResults f (some p) ((outputResults f (some p) st).1)).2 = []
  ∧ (outputResults f none ((outputResults f none st).1)).2
      = (outputResults f none st).2 := by
  refine ⟨?_, ?_, rfl⟩
  · simp [outputResults, hjson]
  · simp [outputResults, hjson]

/-- Witness for C5 (amended): the table configuration flushes nothing to a
file and re-emits identically to stdout. -/
theorem flush_idempotent_file_sink_witness :
    (outputResults tableFlags (some "o") initAgg).2 = []
  ∧ (outputResults tableFlags (some "o")
      ((outputResults tableFlags (some "o") initAgg).1)).2 = []
  ∧ (outputResults tableFlags none
      ((outputResults tableFlags none initAgg).1)).2
      = (outputResults tableFlags none initAgg).2 :=
  flush_idempotent_file_sink tableFlags "o" initAgg rfl

theorem bstep_flag_mono (C : Nat) (l : BulkLabel) (a b : BulkState)
    (h : BStep C l a b) (hf : a.flag = true) : b.flag = true := by
  cases h <;> simp_all

theorem btrace_no_begin (C : Nat) : ∀ (s u : BulkState)
    (ls : List BulkLabel), BTrace C s ls u → s.flag = true →
    BulkLabel.beginT ∉ ls := by
  intro s u ls h
  induction h with
  | nil => intro _; simp
  | cons l s t u ls hstep htail ih =>
    intro hf hmem
    rcases List.mem_cons.mp hmem with h1 | h2
    · subst h1
      cases hstep
      simp_all
    · exact ih (bstep_flag_mono C l s t hstep hf) h2

theorem btrace_append (C : Nat) : ∀ (ls1 ls2 : List BulkLabel)
    (s u : BulkState), BTrace C s (ls1 ++ ls2) u →
    ∃ m, BTrace C s ls1 m ∧ BTrace C m ls2 u := by
  intro ls1
  induction ls1 with
  | nil => intro ls2 s u h; exact ⟨s, BTrace.nil s, h⟩
  | cons l rest ih =>
    intro ls2 s u h
    cases h with
    | cons _ _ t _ _ hstep htail =>
      obtain ⟨m, hm1, hm2⟩ := ih ls2 t u htail
      exact ⟨m, BTrace.cons l s t m rest hstep hm1, hm2⟩

theorem btrace_flushSig_count (C : Nat) : ∀ (s u : BulkState)
    (ls : List BulkLabel), BTrace C s ls u →
    hrank s.handler + ls.count BulkLabel.flushSig = hrank u.handler := by
  intro s u ls h
  induction h with
  | nil => simp
  | cons l s t u ls hstep htail ih =>
    by_cases hl : l = BulkLabel.flushSig
    · subst hl
      cases hstep with
      | flushSig _ h1 h2 =>
        rw [List.count_cons_self]
        simp only [h2, hrank] at ih ⊢
        omega
    · rw [List.count_cons, if_neg (by simpa using hl)]
      have hsame : hrank t.handler = hrank s.handler := by
        cases hstep <;> simp_all [hrank]
      rw [hsame] at ih
      omega

theorem btrace_exit_inv (C : Nat) : ∀ (s u : BulkState)
    (ls : List BulkLabel), BTrace C s ls u →
    (s.exited = none ∨ (s.exited = some 130 ∧ s.handler = HPhase.hexited)) →
    (u.exited = none ∨ (u.exited = some 130 ∧ u.handler = HPhase.hexited)) := by
  intro s u ls h
  induction h with
  | nil => exact id
  | cons l s t u ls hstep htail ih =>
    intro _
    apply ih
    cases hstep <;> simp_all

/-- C6 counterexample: an execution of the bulk-run semantics in which the
interrupt arrives while the main goroutine is completing normally: after the
shutdown flag is set, both the normal-completion flush (`flushMain`, which
`performBulkLookup` runs unconditionally after `wg.Wait`) and the handler
flush (`flushSig`) execute — two flushes, not exactly one — before the
process exits with status 130. -/
theorem shutdown_double_flush_counterexample :
    BTrace 2 (initB 1)
      [BulkLabel.spawnT, BulkLabel.setFlagL, BulkLabel.skipT,
       BulkLabel.waitT, BulkLabel.flushMain, BulkLabel.flushSig,
       BulkLabel.exitSig]
      ⟨0, 0, 0, true, HPhase.hexited, true, true, 2, some 130⟩
  ∧ (⟨0, 0, 0, true, HPhase.hexited, true, true, 2,
      some 130⟩ : BulkState).flushes = 2
  ∧ (⟨0, 0, 0, true, HPhase.hexited, true, true, 2,
      some 130⟩ : BulkState).exited = some 130 := by
  refine ⟨?_, rfl, rfl⟩
  refine BTrace.cons _ _ _ _ _
    (BStep.spawnT (initB 1) rfl rfl rfl (by decide) (by decide)) ?_
  refine BTrace.cons _ _ _ _ _ (BStep.setFlagL _ rfl rfl) ?_
  refine BTrace.cons _ _ _ _ _ (BStep.skipT _ rfl rfl (by decide)) ?_
  refine BTrace.cons _ _ _ _ _
    (BStep.waitT _ rfl rfl (Or.inr rfl) rfl rfl) ?_
  refine BTrace.cons _ _ _ _ _ (BStep.flushMain _ rfl rfl rfl) ?_
  refine BTrace.cons _ _ _ _ _ (BStep.flushSig _ rfl rfl) ?_
  refine BTrace.cons _ _ _ _ _ (BStep.exitSig _ rfl rfl) ?_
  exact BTrace.nil _

/-- C6 (amended): once the shutdown flag is set it never resets; no lookup
task begins processing a target after the flag is set; and every run that
terminates via the interrupt handler ran the handler flush exactly once and
exits with status 130.  (Unlike the original claim, the total number of
flushes after the flag is set can be two: the unconditional
normal-completion flush can interleave, as the counterexample shows.) -/
theorem shutdown_flag_flush_exit_amended (C n k : Nat)
    (ls ls1 ls2 : List BulkLabel) (s u : BulkState) :
    (∀ (l : BulkLabel) (a b : BulkState), BStep C l a b → a.flag = true →
      b.flag = true)
  ∧ (BTrace C (initB n) (ls1 ++ BulkLabel.setFlagL :: ls2) u →
      BulkLabel.beginT ∉ ls2)
  ∧ (BTrace C (initB n) ls s → s.exited = some k →
      k = 130 ∧ ls.count BulkLabel.flushSig = 1) := by
  refine ⟨fun l a b h hf => bstep_flag_mono C l a b h hf, ?_, ?_⟩
  · intro htr
    obtain ⟨m, _, hm2⟩ := btrace_append C ls1 (BulkLabel.setFlagL :: ls2)
      _ _ htr
    cases hm2 with
    | cons _ _ t _ _ hstep htail =>
      have ht : t.flag = true := by cases hstep; simp
      exact btrace_no_begin C t u ls2 htail ht
  · intro htr hex
    have hinv := btrace_exit_inv C _ _ _ htr (Or.inl rfl)
    rcases hinv with hnone | ⟨he, hh⟩
    · rw [hex] at hnone
      cases hnone
    · rw [hex] at he
      have hk : k = 130 := Option.some.inj he
      have hcount := btrace_flushSig_count C _ _ _ htr
      rw [hh] at hcount
      simp only [initB, hrank] at hcount
      exact ⟨hk, by omega⟩

/-- Witness for C6 (amended): a concrete interrupted run over zero targets
applies the amended theorem: no task begins after the flag is set, the exit
status is 130, and the handler flush appears exactly once in the trace. -/
theorem shutdown_flag_flush_exit_amended_witness :
    BulkLabel.beginT ∉ [BulkLabel.flushSig, BulkLabel.exitSig]
  ∧ (130 = 130
      ∧ [BulkLabel.setFlagL, BulkLabel.flushSig,
          BulkLabel.exitSig].count BulkLabel.flushSig = 1) := by
  have htr : BTrace 2 (initB 0)
      [BulkLabel.setFlagL, BulkLabel.flushSig, BulkLabel.exitSig]
      ⟨0, 0, 0, true, HPhase.hexited, false, false, 1, some 130⟩ := by
    refine BTrace.cons _ _ _ _ _ (BStep.setFlagL (initB 0) rfl rfl) ?_
    refine BTrace.cons _ _ _ _ _ (BStep.flushSig _ rfl rfl) ?_
    refine BTrace.cons _ _ _ _ _ (BStep.exitSig _ rfl rfl) ?_
    exact BTrace.nil _
  have h := shutdown_flag_flush_exit_amended 2 0 130
    [BulkLabel.setFlagL, BulkLabel.flushSig, BulkLabel.exitSig] []
    [BulkLabel.flushSig, BulkLabel.exitSig]
    ⟨0, 0, 0, true, HPhase.hexited, false, false, 1, some 130⟩
    ⟨0, 0, 0, true, HPhase.hexited, false, false, 1, some 130⟩
  exact ⟨h.2.1 htr, h.2.2 htr rfl⟩

/-- C7: for every concurrency limit `C ≥ 1` and every bulk run, at every
reachable state the number of simultaneously active lookup tasks (spawned
goroutines holding a semaphore slot, whether still checking the flag or
processing) is at most `C`. -/
theorem concurrency_bounded (C n : Nat) (_hC : 1 ≤ C)
    (ls : List BulkLabel) (s : BulkState)
    (h : BTrace C (initB n) ls s) : s.idleT + s.busyT ≤ C := by
  suffices hinv : ∀ (a b : BulkState) (ls2 : List BulkLabel),
      BTrace C a ls2 b → a.idleT + a.busyT ≤ C →
      b.idleT + b.busyT ≤ C by
    refine hinv _ _ _ h ?_
    simp [initB]
  intro a b ls2 htr
  induction htr with
  | nil => exact id
  | cons l s t u ls hstep htail ih =>
    intro ha
    apply ih
    cases hstep <;> simp_all <;> omega

/-- Witness for C7: after admitting one target under cap 2, the active-task
count of the reached state is within the cap. -/
theorem concurrency_bounded_witness :
    (⟨0, 1, 0, false, HPhase.hidle, false, false, 0,
      none⟩ : BulkState).idleT
      + (⟨0, 1, 0, false, HPhase.hidle, false, false, 0,
          none⟩ : BulkState).busyT ≤ 2 :=
  concurrency_bounded 2 1 (by decide) [BulkLabel.spawnT]
    ⟨0, 1, 0, false, HPhase.hidle, false, false, 0, none⟩
    (BTrace.cons _ _ _ _ _
      (BStep.spawnT (initB 1) rfl rfl rfl (by decide) (by decide))
      (BTrace.nil _))

theorem sanitize_escapes : ∀ (d : List Char) (i : Nat),
    (sanitizeDomain d).get? i = some '%' →
      0 < i ∧ (sanitizeDomain d).get? (i - 1) = some '\\' := by
  intro d
  induction d with
  | nil => intro i h; simp [sanitizeDomain] at h
  | cons c rest ih =>
    intro i h
    by_cases hc : c = '%'
    · subst hc
      simp only [sanitizeDomain, if_pos rfl] at h ⊢
      match i, h with
      | 0, h => simp at h
      | 1, _ => exact ⟨by omega, rfl⟩
      | (n + 2), h =>
        have h' : (sanitizeDomain rest).get? n = some '%' := by
          simpa using h
        obtain ⟨hpos, hbs⟩ := ih n h'
        obtain ⟨m, rfl⟩ : ∃ m, n = m + 1 := ⟨n - 1, by omega⟩
        exact ⟨by omega, by simpa using hbs⟩
    · simp only [sanitizeDomain, if_neg hc] at h ⊢
      match i, h with
      | 0, h =>
        simp only [List.get?_cons_zero, Option.some.injEq] at h
        exact absurd h hc
      | (n + 1), h =>
        have h' : (sanitizeDomain rest).get? n = some '%' := by
          simpa using h
        obtain ⟨hpos, hbs⟩ := ih n h'
        obtain ⟨m, rfl⟩ : ∃ m, n = m + 1 := ⟨n - 1, by omega⟩
        exact ⟨by omega, by simpa using hbs⟩

/-- C9: for every domain string, both query statements (certificate-log and
subdomain lookup) interpolate the domain only after passing it through
`sanitizeDomain`, and in the sanitized domain every wildcard `%` character
is escaped — immediately preceded by a backslash. -/
theorem query_uses_sanitized_domain (tc ts : QueryTemplate) (d : List Char)
    (expired : Bool) (lim : List Char) :
    GetCertLogs_stmt tc d expired lim
      = interpTemplate tc (sanitizeDomain d) (sanitizeDomain d)
          (if expired then tc.filterStr else []) lim
  ∧ GetSubdomains_stmt ts d expired lim
      = interpTemplate ts (sanitizeDomain d) (sanitizeDomain d)
          (if expired then ts.filterStr else []) lim
  ∧ (∀ i, (sanitizeDomain d).get? i = some '%' →
      0 < i ∧ (sanitizeDomain d).get? (i - 1) = some '\\') :=
  ⟨rfl, rfl, fun i h => sanitize_escapes d i h⟩

/-- Witness for C9: sanitizing the domain `50%off` leaves its wildcard at
index 3, escaped by the backslash at index 2. -/
theorem query_uses_sanitized_domain_witness :
    0 < 3 ∧ (sanitizeDomain ['5', '0', '%', 'o', 'f', 'f']).get? 2
      = some '\\' :=
  (query_uses_sanitized_domain ⟨[], [], [], [], [], []⟩
    ⟨[], [], [], [], [], []⟩ ['5', '0', '%', 'o', 'f', 'f'] false []).2.2
    3 (by decide)

/-- Witness for C3: with a ping failing all three probes and the zero jitter
draw, acquisition makes 3 probes, sleeps the first two backoff delays, closes
the handle and reports the last error. -/
theorem connection_acquire_behavior_witness :
    New pingAllFail zeroJitter
      = ⟨3, [delaySeq 0 + zeroJitter 0, delaySeq 1 + zeroJitter 1], true,
         Except.error "refused"⟩ := by
  have hj : ∀ i, zeroJitter i < delaySeq i / 2 := by
    intro i
    have := delaySeq_ge i
    simp only [zeroJitter]
    omega
  exact (connection_acquire_behavior pingAllFail zeroJitter hj).2.2.1
    "refused" "refused" "refused" rfl rfl rfl

end Crt
